import Mathlib

/-!
Shallow embedding of the deployment-verification harness in
`surajssd/testclusterkapp` (Go).  The repository contains three copies of the
same logic: a sequential orchestrator (`main.go` / `RunTests`), a concurrent
goroutine variant, and an e2e test variant (`Test_Integration`) that uses
`defer deleteNamespace`.  The pure control flow and data transformations of
the functions `RunKapp`, `PodsStarted`, `getEndPoints`, `pingEndPoints` and
the per-test-case orchestration are translated here; external collaborators
(the Kubernetes client, HTTP probes, process execution) are modelled as
explicit oracle parameters, and Go's unbounded `for` loops are modelled with
an explicit stream of collaborator responses (for listings) or fuel (for the
health-poll passes).  Go maps are modelled either as association lists carrying
the (arbitrary) iteration order, or, when only built up and queried, as
functions `String → Option String`.
-/

namespace Kapp

/-- Pod phases from `k8s.io/client-go/pkg/api/v1`; only `running`
(`v1.PodRunning`) is inspected by the code. -/
inductive PodPhase
  | pending
  | running
  | succeeded
  | failed
  | unknown
deriving DecidableEq, Repr

/-- The projection of a `v1.Pod` used by `PodsStarted`: its name and phase. -/
structure Pod where
  name : String
  phase : PodPhase
deriving DecidableEq, Repr

/-- `leadsWith needle hay`: `needle` starts `hay` character by character. -/
def leadsWith : List Char → List Char → Bool
  | [], _ => true
  | _ :: _, [] => false
  | c :: cs, h :: hs => c == h && leadsWith cs hs

/-- `occursIn needle hay`: `needle` occurs contiguously inside `hay`. -/
def occursIn (needle : List Char) : List Char → Bool
  | [] => leadsWith needle []
  | h :: hs => leadsWith needle (h :: hs) || occursIn needle hs

/-- Model of Go `strings.Contains(s, sub)`. -/
def goContains (s sub : String) : Bool := occursIn sub.toList s.toList

/-- The per-pod condition of `PodsStarted`'s inner loop:
`strings.Contains(p.Name, k) && p.Status.Phase == v1.PodRunning`. -/
def podMatch (k : String) (p : Pod) : Bool :=
  goContains p.name k && decide (p.phase = PodPhase.running)

/-- One scan of `PodsStarted` over a pod listing: the Go loop ranges over the
keys of the `podUp` map and executes `delete(podUp, k)` whenever some listed
pod matches `k`, so on the key list (in map-iteration order) its net effect is
to keep exactly the keys with no matching running pod. -/
def podScan (pods : List Pod) (podUp : List String) : List String :=
  podUp.filter (fun k => !(pods.any (podMatch k)))

/-- Outcome of the `PodsStarted` loop, run against a finite stream of pod-list
responses.  `success` records the number of listings consumed and of sleeps
performed; `pending` means the stream was exhausted with work remaining
(the Go loop would keep polling). -/
inductive PodsOutcome
  | listErr (msg : String) (sleeps : Nat)
  | success (listings sleeps : Nat)
  | pending (remaining : List String) (listings sleeps : Nat)
deriving DecidableEq, Repr

/-- The `for` loop of `PodsStarted`: list pods (propagating a listing error
immediately), scan the remaining set, break when it is empty, otherwise sleep
one time unit and repeat. -/
def podsStartedRun : List (Except String (List Pod)) → List String → Nat → Nat → PodsOutcome
  | [], podUp, used, sl => .pending podUp used sl
  | l :: rest, podUp, used, sl =>
    match l with
    | .error e => .listErr ("error while listing all pods: " ++ e) sl
    | .ok pods =>
      let rem := podScan pods podUp
      if rem.isEmpty then .success (used + 1) sl
      else podsStartedRun rest rem (used + 1) (sl + 1)

/-- `PodsStarted` proper: builds the work-remaining set from the pod-name list
and runs the polling loop. -/
def PodsStarted (listings : List (Except String (List Pod))) (podNames : List String) : PodsOutcome :=
  podsStartedRun listings podNames 0 0

/-- Outcome of one HTTP GET issued by `pingEndPoints`: either the request
itself failed (network error or client timeout — no response obtained), or a
response with the given status line was received. -/
inductive ProbeResult
  | reqError
  | resp (status : String)
deriving DecidableEq, Repr

/-- The error built by `fmt.Errorf("for service %q got %q", e, respose.Status)`
(`%q` modelled as plain quoting, faithful for strings without escapes). -/
def pingErrMsg (e st : String) : String :=
  "for service \"" ++ e ++ "\" got \"" ++ st ++ "\""

/-- State after one inner pass of `pingEndPoints`: the endpoint map (in
iteration order), the probes issued so far in order, the number of one-unit
sleeps performed, and the error that aborted the pass, if any. -/
structure PassResult where
  remaining : List (String × String)
  requests : List (String × String)
  sleeps : Nat
  err : Option String
deriving DecidableEq, Repr

/-- The inner `for e, u := range ep` loop of `pingEndPoints`.  The first list
argument is the iteration-order snapshot still to be processed; the second is
the current map contents (Go's `delete(ep, e)` removes the entry with key `e`,
modelled as a key filter since map keys are unique).  On a request-level
failure the entry is kept, a sleep is counted and the scan continues; on a
`"200 OK"` status the entry is removed; on any other status the loop returns
the error immediately. -/
def pingPass (probe : String → String → ProbeResult) :
    List (String × String) → List (String × String) → List (String × String) → Nat → PassResult
  | [], m, reqs, sl => ⟨m, reqs, sl, none⟩
  | (e, u) :: rest, m, reqs, sl =>
    match probe e u with
    | .reqError => pingPass probe rest m (reqs ++ [(e, u)]) (sl + 1)
    | .resp st =>
      if st = "200 OK" then
        pingPass probe rest (m.filter (fun kv => decide (kv.1 ≠ e))) (reqs ++ [(e, u)]) sl
      else
        ⟨m, reqs ++ [(e, u)], sl, some (pingErrMsg e st)⟩

/-- Outcome of the outer `for` loop of `pingEndPoints`.  `pending` means the
fuel ran out with entries remaining (the Go loop would keep polling). -/
inductive PingOutcome
  | success (requests : List (String × String)) (sleeps : Nat)
  | failure (msg : String) (remaining requests : List (String × String)) (sleeps : Nat)
  | pending (remaining requests : List (String × String)) (sleeps : Nat)
deriving DecidableEq, Repr

/-- The outer loop of `pingEndPoints`: run one pass over the current map;
return its error if it aborted, break with success when the map has become
empty, otherwise repeat. -/
def pingRun (probe : String → String → ProbeResult) :
    Nat → List (String × String) → List (String × String) → Nat → PingOutcome
  | 0, m, reqs, sl => .pending m reqs sl
  | fuel + 1, m, reqs, sl =>
    let p := pingPass probe m m reqs sl
    match p.err with
    | some msg => .failure msg p.remaining p.requests p.sleeps
    | none =>
      if p.remaining.isEmpty then .success p.requests p.sleeps
      else pingRun probe fuel p.remaining p.requests p.sleeps

/-- `pingEndPoints` proper: poll the endpoint map starting with no probes
issued and no sleeps performed. -/
def pingEndPoints (probe : String → String → ProbeResult) (fuel : Nat)
    (ep : List (String × String)) : PingOutcome :=
  pingRun probe fuel ep [] 0

/-- The effect of a pass prefix on the map: entries probed with a `"200 OK"`
response are removed, entries with a request-level failure are kept. -/
def passMap (probe : String → String → ProbeResult) :
    List (String × String) → List (String × String) → List (String × String)
  | [], m => m
  | kv :: rest, m =>
    match probe kv.1 kv.2 with
    | .reqError => passMap probe rest m
    | .resp st =>
      if st = "200 OK" then passMap probe rest (m.filter (fun x => decide (x.1 ≠ kv.1)))
      else passMap probe rest m

end Kapp

/-- C3: a remaining expected substring is removed by a pod-listing scan iff
some listed pod's name contains it (substring containment) and that pod's
phase is Running. -/
theorem C3_podScan_removes_iff (pods : List Kapp.Pod) (podUp : List String) (k : String)
    (hk : k ∈ podUp) :
    k ∉ Kapp.podScan pods podUp ↔
      ∃ p ∈ pods, Kapp.goContains p.name k = true ∧ p.phase = Kapp.PodPhase.running := by
  have hbase : k ∉ Kapp.podScan pods podUp ↔ pods.any (Kapp.podMatch k) = true := by
    simp [Kapp.podScan, List.mem_filter, hk]
  rw [hbase, List.any_eq_true]
  constructor
  · intro ⟨p, hp, hm⟩
    simp only [Kapp.podMatch, Bool.and_eq_true, decide_eq_true_eq] at hm
    exact ⟨p, hp, hm.1, hm.2⟩
  · intro ⟨p, hp, hc, hr⟩
    exact ⟨p, hp, by simp [Kapp.podMatch, hc, hr]⟩

/-- C3 witness: the unrelated pod `webcache-xyz` in Running phase satisfies the
expected substring `web`, which is therefore removed from the remaining set. -/
theorem C3_podScan_removes_iff_witness :
    "web" ∉ Kapp.podScan [⟨"webcache-xyz", Kapp.PodPhase.running⟩] ["web"] :=
  (C3_podScan_removes_iff [⟨"webcache-xyz", Kapp.PodPhase.running⟩] ["web"] "web"
      (by decide)).mpr
    ⟨⟨"webcache-xyz", Kapp.PodPhase.running⟩, by decide, by decide, rfl⟩

/-- C6: if the very first pod listing already satisfies every expected
substring, `PodsStarted` returns success after that single listing and with
zero sleeps. -/
theorem C6_pods_first_listing_success (pods : List Kapp.Pod) (podUp : List String)
    (rest : List (Except String (List Kapp.Pod)))
    (h : Kapp.podScan pods podUp = []) :
    Kapp.PodsStarted (Except.ok pods :: rest) podUp = Kapp.PodsOutcome.success 1 0 := by
  simp [Kapp.PodsStarted, Kapp.podsStartedRun, h]

/-- C6 witness: one running pod `web-abc123` satisfies the single expected
substring `web` on the first listing. -/
theorem C6_pods_first_listing_success_witness :
    Kapp.PodsStarted [Except.ok [⟨"web-abc123", Kapp.PodPhase.running⟩]] ["web"] =
      Kapp.PodsOutcome.success 1 0 :=
  C6_pods_first_listing_success [⟨"web-abc123", Kapp.PodPhase.running⟩] ["web"] []
    (by decide)

/-- Behaviour of a `pingEndPoints` pass whose scan reaches an entry answering
with a status line other than `"200 OK"`: the pass stops there, its probes are
exactly the prefix probed so far plus the failing one, the map keeps its
current contents, and the error names the endpoint and its status. -/
theorem Kapp.pingPass_fail (probe : String → String → Kapp.ProbeResult)
    (e u st : String) (he : probe e u = .resp st) (hst : st ≠ "200 OK") :
    ∀ pre : List (String × String),
      (∀ kv ∈ pre, probe kv.1 kv.2 = .reqError ∨ probe kv.1 kv.2 = .resp "200 OK") →
      ∀ post m reqs sl, ∃ sl',
        Kapp.pingPass probe (pre ++ (e, u) :: post) m reqs sl =
          ⟨Kapp.passMap probe pre m, reqs ++ pre ++ [(e, u)], sl',
            some (Kapp.pingErrMsg e st)⟩ := by
  intro pre
  induction pre with
  | nil =>
    intro _ post m reqs sl
    exact ⟨sl, by simp [Kapp.pingPass, Kapp.passMap, he, hst]⟩
  | cons kv pre ih =>
    intro hpre post m reqs sl
    obtain ⟨e2, u2⟩ := kv
    have htail : ∀ kv ∈ pre, probe kv.1 kv.2 = .reqError ∨ probe kv.1 kv.2 = .resp "200 OK" :=
      fun kv hkv => hpre kv (List.mem_cons_of_mem _ hkv)
    rcases hpre (e2, u2) (List.mem_cons_self _ _) with h | h
    · obtain ⟨sl', heq⟩ := ih htail post m (reqs ++ [(e2, u2)]) (sl + 1)
      refine ⟨sl', ?_⟩
      have hstep : Kapp.pingPass probe (((e2, u2) :: pre) ++ (e, u) :: post) m reqs sl =
          Kapp.pingPass probe (pre ++ (e, u) :: post) m (reqs ++ [(e2, u2)]) (sl + 1) := by
        simp [Kapp.pingPass, h]
      rw [hstep, heq]
      simp [Kapp.passMap, h, List.append_assoc]
    · obtain ⟨sl', heq⟩ :=
        ih htail post (m.filter (fun x => decide (x.1 ≠ e2))) (reqs ++ [(e2, u2)]) sl
      refine ⟨sl', ?_⟩
      have hstep : Kapp.pingPass probe (((e2, u2) :: pre) ++ (e, u) :: post) m reqs sl =
          Kapp.pingPass probe (pre ++ (e, u) :: post)
            (m.filter (fun x => decide (x.1 ≠ e2))) (reqs ++ [(e2, u2)]) sl := by
        simp [Kapp.pingPass, h]
      rw [hstep, heq]
      simp [Kapp.passMap, h, List.append_assoc]

/-- C1: when the scan reaches an endpoint whose response status line is not
exactly `"200 OK"` (any other 2xx included), the whole poll returns
immediately with an error naming that endpoint and its status, and the probes
issued over the entire run are exactly those up to and including the failing
one — no remaining endpoint is probed afterwards. -/
theorem C1_ping_non200_aborts (probe : String → String → Kapp.ProbeResult)
    (pre post : List (String × String)) (e u st : String) (fuel : Nat)
    (hpre : ∀ kv ∈ pre, probe kv.1 kv.2 = .reqError ∨ probe kv.1 kv.2 = .resp "200 OK")
    (he : probe e u = .resp st) (hst : st ≠ "200 OK") :
    ∃ rem sl,
      Kapp.pingEndPoints probe (fuel + 1) (pre ++ (e, u) :: post) =
        Kapp.PingOutcome.failure (Kapp.pingErrMsg e st) rem (pre ++ [(e, u)]) sl := by
  obtain ⟨sl', heq⟩ :=
    Kapp.pingPass_fail probe e u st he hst pre hpre post (pre ++ (e, u) :: post) [] 0
  exact ⟨Kapp.passMap probe pre (pre ++ (e, u) :: post), sl',
    by simp [Kapp.pingEndPoints, Kapp.pingRun, heq]⟩

/-- Probe oracle for the C1 witness: one request-level failure, one exact
`"200 OK"`, then a `"204 No Content"` response that must abort the poll. -/
def probeW1 : String → String → Kapp.ProbeResult := fun _ u =>
  if u = "okurl" then .resp "200 OK"
  else if u = "nourl" then .resp "204 No Content"
  else .reqError

/-- C1 witness: with two healthy-or-erroring endpoints before it, the endpoint
`c` answering `"204 No Content"` aborts the poll with an error naming `c` and
its status, and the last endpoint `d` is never probed. -/
theorem C1_ping_non200_aborts_witness :
    ∃ rem sl,
      Kapp.pingEndPoints probeW1 1
          [("a", "x"), ("b", "okurl"), ("c", "nourl"), ("d", "y")] =
        Kapp.PingOutcome.failure (Kapp.pingErrMsg "c" "204 No Content") rem
          [("a", "x"), ("b", "okurl"), ("c", "nourl")] sl :=
  C1_ping_non200_aborts probeW1 [("a", "x"), ("b", "okurl")] [("d", "y")]
    "c" "nourl" "204 No Content" 0 (by decide) (by decide) (by decide)

/-- C7: `pingEndPoints` on a map with zero entries returns success at once,
with an empty probe trace (no HTTP request issued) and no sleeps. -/
theorem C7_ping_empty_map (probe : String → String → Kapp.ProbeResult) (fuel : Nat) :
    Kapp.pingEndPoints probe (fuel + 1) [] = Kapp.PingOutcome.success [] 0 := by
  simp [Kapp.pingEndPoints, Kapp.pingRun, Kapp.pingPass]

/-- C8: a request-level failure (no response obtained) does not abort the
pass: the probe is recorded, one sleep is counted, the entry stays in the map
(which is unchanged), and the scan continues with the remaining entries of the
same pass.  Moreover a pass in which no probe returns a status other than
`"200 OK"` never produces an error — only a received non-200-OK response
terminates the loop early. -/
theorem C8_ping_request_failure_retries (probe : String → String → Kapp.ProbeResult)
    (e u : String) (rest m reqs : List (String × String)) (sl : Nat)
    (h : probe e u = .reqError) :
    Kapp.pingPass probe ((e, u) :: rest) m reqs sl =
      Kapp.pingPass probe rest m (reqs ++ [(e, u)]) (sl + 1) ∧
    ∀ (l m2 reqs2 : List (String × String)) (sl2 : Nat),
      (∀ kv ∈ l, probe kv.1 kv.2 = .reqError ∨ probe kv.1 kv.2 = .resp "200 OK") →
      (Kapp.pingPass probe l m2 reqs2 sl2).err = none := by
  constructor
  · simp [Kapp.pingPass, h]
  · intro l
    induction l with
    | nil => intro m2 reqs2 sl2 _; simp [Kapp.pingPass]
    | cons kv rest2 ih =>
      intro m2 reqs2 sl2 hgood
      obtain ⟨e2, u2⟩ := kv
      have htail : ∀ kv ∈ rest2, probe kv.1 kv.2 = .reqError ∨ probe kv.1 kv.2 = .resp "200 OK" :=
        fun kv hkv => hgood kv (List.mem_cons_of_mem _ hkv)
      rcases hgood (e2, u2) (List.mem_cons_self _ _) with hp | hp
      · simpa [Kapp.pingPass, hp] using ih m2 (reqs2 ++ [(e2, u2)]) (sl2 + 1) htail
      · simpa [Kapp.pingPass, hp] using
          ih (m2.filter (fun x => decide (x.1 ≠ e2))) (reqs2 ++ [(e2, u2)]) sl2 htail

/-- C8 witness: a concrete pass in which the first probe fails at request
level continues into the rest of the pass, and a pass of request failures and
exact successes ends without error. -/
theorem C8_ping_request_failure_retries_witness :
    Kapp.pingPass probeW1 [("a", "x"), ("b", "okurl")] [("a", "x"), ("b", "okurl")] [] 0 =
      Kapp.pingPass probeW1 [("b", "okurl")] [("a", "x"), ("b", "okurl")] [("a", "x")] 1 ∧
    (Kapp.pingPass probeW1 [("a", "x"), ("b", "okurl")] [("a", "x"), ("b", "okurl")] [] 0).err =
      none := by
  have h := C8_ping_request_failure_retries probeW1 "a" "x" [("b", "okurl")]
    [("a", "x"), ("b", "okurl")] [] 0 (by decide)
  exact ⟨h.1, h.2 [("a", "x"), ("b", "okurl")] [("a", "x"), ("b", "okurl")] [] 0 (by decide)⟩

/-- The map left behind by a `pingEndPoints` pass is a sublist of (and so
never adds a key to) the map it started from. -/
theorem Kapp.pingPass_remaining_sublist (probe : String → String → Kapp.ProbeResult) :
    ∀ (l m reqs : List (String × String)) (sl : Nat),
      ((Kapp.pingPass probe l m reqs sl).remaining).Sublist m := by
  intro l
  induction l with
  | nil => intro m reqs sl; simp [Kapp.pingPass]
  | cons kv rest ih =>
    intro m reqs sl
    obtain ⟨e, u⟩ := kv
    cases hp : probe e u with
    | reqError => simpa [Kapp.pingPass, hp] using ih m (reqs ++ [(e, u)]) (sl + 1)
    | resp st =>
      by_cases hst : st = "200 OK"
      · subst hst
        have h2 := ih (m.filter (fun x => decide (x.1 ≠ e))) (reqs ++ [(e, u)]) sl
        have h3 : ((Kapp.pingPass probe ((e, u) :: rest) m reqs sl).remaining).Sublist
            (m.filter (fun x => decide (x.1 ≠ e))) := by
          simpa [Kapp.pingPass, hp] using h2
        exact h3.trans (List.filter_sublist m)
      · simp [Kapp.pingPass, hp, hst]

/-- An entry can only disappear from the map during a pass if some processed
entry with the same key was probed and answered exactly `"200 OK"`. -/
theorem Kapp.pingPass_remove_reason (probe : String → String → Kapp.ProbeResult) :
    ∀ (l m reqs : List (String × String)) (sl : Nat) (kv : String × String),
      kv ∈ m → kv ∉ (Kapp.pingPass probe l m reqs sl).remaining →
      ∃ x ∈ l, x.1 = kv.1 ∧ probe x.1 x.2 = .resp "200 OK" := by
  intro l
  induction l with
  | nil => intro m reqs sl kv hm hnot; simp [Kapp.pingPass] at hnot; exact absurd hm hnot
  | cons x rest ih =>
    intro m reqs sl kv hm hnot
    obtain ⟨e, u⟩ := x
    cases hp : probe e u with
    | reqError =>
      rw [show Kapp.pingPass probe ((e, u) :: rest) m reqs sl =
          Kapp.pingPass probe rest m (reqs ++ [(e, u)]) (sl + 1) by simp [Kapp.pingPass, hp]]
        at hnot
      obtain ⟨x, hx, hk, hgot⟩ := ih m (reqs ++ [(e, u)]) (sl + 1) kv hm hnot
      exact ⟨x, List.mem_cons_of_mem _ hx, hk, hgot⟩
    | resp st =>
      by_cases hst : st = "200 OK"
      · subst hst
        rw [show Kapp.pingPass probe ((e, u) :: rest) m reqs sl =
            Kapp.pingPass probe rest (m.filter (fun x => decide (x.1 ≠ e)))
              (reqs ++ [(e, u)]) sl by simp [Kapp.pingPass, hp]] at hnot
        by_cases hkey : kv.1 = e
        · exact ⟨(e, u), List.mem_cons_self _ _, hkey.symm, hp⟩
        · have hmem : kv ∈ m.filter (fun x => decide (x.1 ≠ e)) := by
            simp [List.mem_filter, hm, hkey]
          obtain ⟨x, hx, hk, hgot⟩ :=
            ih (m.filter (fun x => decide (x.1 ≠ e))) (reqs ++ [(e, u)]) sl kv hmem hnot
          exact ⟨x, List.mem_cons_of_mem _ hx, hk, hgot⟩
      · rw [show Kapp.pingPass probe ((e, u) :: rest) m reqs sl =
            ⟨m, reqs ++ [(e, u)], sl, some (Kapp.pingErrMsg e st)⟩ by
              simp [Kapp.pingPass, hp, hst]] at hnot
        exact absurd hm hnot

/-- `passMap` never adds entries: the resulting map is a sublist of its
input. -/
theorem Kapp.passMap_sublist (probe : String → String → Kapp.ProbeResult) :
    ∀ pre m : List (String × String), (Kapp.passMap probe pre m).Sublist m := by
  intro pre
  induction pre with
  | nil => intro m; simp [Kapp.passMap]
  | cons kv rest ih =>
    intro m
    cases hp : probe kv.1 kv.2 with
    | reqError => simpa [Kapp.passMap, hp] using ih m
    | resp st =>
      by_cases hst : st = "200 OK"
      · subst hst
        have h2 := ih (m.filter (fun x => decide (x.1 ≠ kv.1)))
        have h3 : (Kapp.passMap probe (kv :: rest) m).Sublist
            (m.filter (fun x => decide (x.1 ≠ kv.1))) := by
          simpa [Kapp.passMap, hp] using h2
        exact h3.trans (List.filter_sublist m)
      · simpa [Kapp.passMap, hp, hst] using ih m

/-- An entry whose key is probed by no entry of the processed prefix survives
`passMap`. -/
theorem Kapp.passMap_mem_preserve (probe : String → String → Kapp.ProbeResult) :
    ∀ (pre m : List (String × String)) (kv : String × String),
      kv ∈ m → (∀ x ∈ pre, kv.1 ≠ x.1) → kv ∈ Kapp.passMap probe pre m := by
  intro pre
  induction pre with
  | nil => intro m kv hm _; simpa [Kapp.passMap] using hm
  | cons x rest ih =>
    intro m kv hm hkeys
    have htail : ∀ y ∈ rest, kv.1 ≠ y.1 := fun y hy => hkeys y (List.mem_cons_of_mem _ hy)
    cases hp : probe x.1 x.2 with
    | reqError => simpa [Kapp.passMap, hp] using ih m kv hm htail
    | resp st =>
      by_cases hst : st = "200 OK"
      · subst hst
        have hmem : kv ∈ m.filter (fun y => decide (y.1 ≠ x.1)) := by
          simp [List.mem_filter, hm, hkeys x (List.mem_cons_self _ _)]
        simpa [Kapp.passMap, hp] using
          ih (m.filter (fun y => decide (y.1 ≠ x.1))) kv hmem htail
      · simpa [Kapp.passMap, hp, hst] using ih m kv hm htail

/-- Every processed entry that answered exactly `"200 OK"` has been removed
from the map by `passMap`: no entry with its key survives. -/
theorem Kapp.passMap_removed (probe : String → String → Kapp.ProbeResult) :
    ∀ (pre m : List (String × String)) (kv : String × String),
      kv ∈ pre → probe kv.1 kv.2 = .resp "200 OK" →
      ∀ v', (kv.1, v') ∉ Kapp.passMap probe pre m := by
  intro pre
  induction pre with
  | nil => intro m kv hkv; simp at hkv
  | cons x rest ih =>
    intro m kv hkv hok v'
    rcases List.mem_cons.mp hkv with heq | hmem
    · subst heq
      rw [show Kapp.passMap probe (kv :: rest) m =
          Kapp.passMap probe rest (m.filter (fun y => decide (y.1 ≠ kv.1))) by
            simp [Kapp.passMap, hok]]
      intro hin
      have := (Kapp.passMap_sublist probe rest
        (m.filter (fun y => decide (y.1 ≠ kv.1)))).subset hin
      simp [List.mem_filter] at this
    · cases hp : probe x.1 x.2 with
      | reqError => simpa [Kapp.passMap, hp] using ih m kv hmem hok v'
      | resp st =>
        by_cases hst : st = "200 OK"
        · subst hst
          simpa [Kapp.passMap, hp] using
            ih (m.filter (fun y => decide (y.1 ≠ x.1))) kv hmem hok v'
        · simpa [Kapp.passMap, hp, hst] using ih m kv hmem hok v'

/-- C10: monotone shrinking of both work-remaining maps.  (1) a pod scan never
adds a key; (2) a health-poll pass never adds an entry; (3) a key leaves the
pod set only when a matching running pod was listed; (4) an entry leaves the
endpoint map only when an entry with its key was probed and answered exactly
`"200 OK"`; (5)/(6) the pod loop terminates successfully exactly when the scan
empties the set, and otherwise sleeps and repeats on the shrunken set;
(7) the ping loop breaks with success exactly when the pass empties the map,
and otherwise repeats on the shrunken map; (8) when the poll aborts on a bad
status, the map handed back holds exactly the pass-start entries minus those
that succeeded before the failing probe: every earlier `"200 OK"` key has been
removed and the failing entry is still present. -/
theorem C10_maps_shrink_monotonically :
    (∀ (pods : List Kapp.Pod) (podUp : List String),
      (Kapp.podScan pods podUp).Sublist podUp) ∧
    (∀ (probe : String → String → Kapp.ProbeResult)
        (l m reqs : List (String × String)) (sl : Nat),
      ((Kapp.pingPass probe l m reqs sl).remaining).Sublist m) ∧
    (∀ (pods : List Kapp.Pod) (podUp : List String) (k : String),
      k ∈ podUp → k ∉ Kapp.podScan pods podUp → pods.any (Kapp.podMatch k) = true) ∧
    (∀ (probe : String → String → Kapp.ProbeResult)
        (l m reqs : List (String × String)) (sl : Nat) (kv : String × String),
      kv ∈ m → kv ∉ (Kapp.pingPass probe l m reqs sl).remaining →
      ∃ x ∈ l, x.1 = kv.1 ∧ probe x.1 x.2 = .resp "200 OK") ∧
    (∀ (pods : List Kapp.Pod) (podUp : List String)
        (rest : List (Except String (List Kapp.Pod))) (used sl : Nat),
      Kapp.podScan pods podUp = [] →
        Kapp.podsStartedRun (Except.ok pods :: rest) podUp used sl =
          Kapp.PodsOutcome.success (used + 1) sl) ∧
    (∀ (pods : List Kapp.Pod) (podUp : List String)
        (rest : List (Except String (List Kapp.Pod))) (used sl : Nat),
      Kapp.podScan pods podUp ≠ [] →
        Kapp.podsStartedRun (Except.ok pods :: rest) podUp used sl =
          Kapp.podsStartedRun rest (Kapp.podScan pods podUp) (used + 1) (sl + 1)) ∧
    (∀ (probe : String → String → Kapp.ProbeResult) (fuel : Nat)
        (m reqs : List (String × String)) (sl : Nat),
      (Kapp.pingPass probe m m reqs sl).err = none →
        ((Kapp.pingPass probe m m reqs sl).remaining = [] →
          Kapp.pingRun probe (fuel + 1) m reqs sl =
            Kapp.PingOutcome.success (Kapp.pingPass probe m m reqs sl).requests
              (Kapp.pingPass probe m m reqs sl).sleeps) ∧
        ((Kapp.pingPass probe m m reqs sl).remaining ≠ [] →
          Kapp.pingRun probe (fuel + 1) m reqs sl =
            Kapp.pingRun probe fuel (Kapp.pingPass probe m m reqs sl).remaining
              (Kapp.pingPass probe m m reqs sl).requests
              (Kapp.pingPass probe m m reqs sl).sleeps)) ∧
    (∀ (probe : String → String → Kapp.ProbeResult)
        (pre post : List (String × String)) (e u st : String) (fuel : Nat),
      (∀ kv ∈ pre, probe kv.1 kv.2 = .reqError ∨ probe kv.1 kv.2 = .resp "200 OK") →
      probe e u = .resp st → st ≠ "200 OK" → e ∉ pre.map Prod.fst →
      ∃ sl',
        Kapp.pingEndPoints probe (fuel + 1) (pre ++ (e, u) :: post) =
          Kapp.PingOutcome.failure (Kapp.pingErrMsg e st)
            (Kapp.passMap probe pre (pre ++ (e, u) :: post)) (pre ++ [(e, u)]) sl' ∧
        (e, u) ∈ Kapp.passMap probe pre (pre ++ (e, u) :: post) ∧
        ∀ kv ∈ pre, probe kv.1 kv.2 = .resp "200 OK" →
          ∀ v', (kv.1, v') ∉ Kapp.passMap probe pre (pre ++ (e, u) :: post)) := by
  refine ⟨?_, ?_, ?_, ?_, ?_, ?_, ?_, ?_⟩
  · intro pods podUp
    exact List.filter_sublist podUp
  · intro probe l m reqs sl
    exact Kapp.pingPass_remaining_sublist probe l m reqs sl
  · intro pods podUp k hk hnot
    simp only [Kapp.podScan, List.mem_filter, not_and, Bool.not_eq_true',
      Bool.not_eq_false] at hnot
    exact hnot hk
  · intro probe l m reqs sl kv hm hnot
    exact Kapp.pingPass_remove_reason probe l m reqs sl kv hm hnot
  · intro pods podUp rest used sl h
    simp [Kapp.podsStartedRun, h]
  · intro pods podUp rest used sl h
    simp [Kapp.podsStartedRun, h]
  · intro probe fuel m reqs sl herr
    constructor
    · intro hrem
      simp only [Kapp.pingRun]
      rw [herr]
      simp [hrem]
    · intro hrem
      simp only [Kapp.pingRun]
      rw [herr]
      simp [hrem]
  · intro probe pre post e u st fuel hpre he hst hkey
    obtain ⟨sl', heq⟩ :=
      Kapp.pingPass_fail probe e u st he hst pre hpre post (pre ++ (e, u) :: post) [] 0
    refine ⟨sl', ?_, ?_, ?_⟩
    · simp [Kapp.pingEndPoints, Kapp.pingRun, heq]
    · refine Kapp.passMap_mem_preserve probe pre (pre ++ (e, u) :: post) (e, u) ?_ ?_
      · simp
      · intro x hx hcontra
        refine absurd ?_ hkey
        rw [show e = x.1 from hcontra]
        exact List.mem_map_of_mem Prod.fst hx
    · intro kv hkv hok v'
      exact Kapp.passMap_removed probe pre (pre ++ (e, u) :: post) kv hkv hok v'

/-- C10 witness: a two-entry map whose first entry answers `"200 OK"` and
whose second answers `"204 No Content"`: the poll aborts naming the second
entry, which is still in the map handed back, while the first has been
removed. -/
theorem C10_maps_shrink_monotonically_witness :
    ∃ sl',
      Kapp.pingEndPoints probeW1 1 [("b", "okurl"), ("c", "nourl")] =
        Kapp.PingOutcome.failure (Kapp.pingErrMsg "c" "204 No Content")
          (Kapp.passMap probeW1 [("b", "okurl")] [("b", "okurl"), ("c", "nourl")])
          [("b", "okurl"), ("c", "nourl")] sl' ∧
      ("c", "nourl") ∈ Kapp.passMap probeW1 [("b", "okurl")] [("b", "okurl"), ("c", "nourl")] ∧
      ∀ kv ∈ [("b", "okurl")], probeW1 kv.1 kv.2 = Kapp.ProbeResult.resp "200 OK" →
        ∀ v', (kv.1, v') ∉ Kapp.passMap probeW1 [("b", "okurl")] [("b", "okurl"), ("c", "nourl")] :=
  C10_maps_shrink_monotonically.2.2.2.2.2.2.2 probeW1 [("b", "okurl")] []
    "c" "nourl" "204 No Content" 0 (by decide) (by decide) (by decide) (by decide)

namespace Kapp

/-- One address of a cluster node (`v1.NodeAddress`); only `.Address` is
read. -/
structure NodeAddress where
  address : String
deriving DecidableEq, Repr

/-- The projection of a `v1.Node` used by `getEndPoints`: its status
addresses. -/
structure Node where
  addresses : List NodeAddress
deriving DecidableEq, Repr

/-- The projection of a live `v1.ServicePort`: declared port and allocated
node port (Go `int32`, modelled as `Int`; the formatted values stay well
inside the range, so wrap-around never occurs). -/
structure LivePort where
  port : Int
  nodePort : Int
deriving DecidableEq, Repr

/-- The projection of a live `v1.Service`: name and port list. -/
structure Service where
  name : String
  ports : List LivePort
deriving DecidableEq, Repr

/-- A declared expectation: logical service name and container port
(the test harness's own `ServicePort` struct). -/
structure ServicePort where
  name : String
  port : Int
deriving DecidableEq, Repr

/-- `fmt.Sprintf("%s:%d", svc.Name, svc.Port)`. -/
def svcKey (svc : ServicePort) : String := svc.name ++ ":" ++ toString svc.port

/-- `fmt.Sprintf("http://%s:%d", nodeIP, port)`. -/
def nodeUrl (nodeIP : String) (nodePort : Int) : String :=
  "http://" ++ nodeIP ++ ":" ++ toString nodePort

/-- The endpoint map built by `getEndPoints` is only assigned to and returned,
so it is modelled as a function from keys to optional values. -/
def emptyEP : String → Option String := fun _ => none

/-- Go map assignment `endpoint[k] = v` (last write wins). -/
def insertEP (m : String → Option String) (k v : String) : String → Option String :=
  fun q => if q = k then some v else m q

/-- Innermost loop of `getEndPoints`: `for _, p := range s.Spec.Ports`,
inserting `endpoint[name:port] = http://nodeIP:nodePort` on a container-port
match. -/
def portLoop (nodeIP : String) (svc : ServicePort) :
    List LivePort → (String → Option String) → String → Option String
  | [], m => m
  | p :: ps, m =>
    portLoop nodeIP svc ps
      (if p.port = svc.port then insertEP m (svcKey svc) (nodeUrl nodeIP p.nodePort) else m)

/-- Middle loop of `getEndPoints`: `for _, s := range runningSvcs.Items`,
scanning a matching live service's ports. -/
def svcLoop (nodeIP : String) (svc : ServicePort) :
    List Service → (String → Option String) → String → Option String
  | [], m => m
  | s :: ss, m =>
    svcLoop nodeIP svc ss (if s.name = svc.name then portLoop nodeIP svc s.ports m else m)

/-- Outer loop of `getEndPoints`: `for _, svc := range svcs`. -/
def declLoop (nodeIP : String) :
    List ServicePort → List Service → (String → Option String) → String → Option String
  | [], _, m => m
  | svc :: rest, services, m => declLoop nodeIP rest services (svcLoop nodeIP svc services m)

/-- `getEndPoints`, given the outcomes of the node listing and the service
listing.  `none` models the Go panic (index out of range) on the unguarded
accesses `node.Items[0]` and `.Status.Addresses[0]`; `some (.error _)` is a
returned listing error; `some (.ok m)` is the built endpoint map.  The service
listing happens after the node address is read, as in the source. -/
def getEndPoints (nodesList : Except String (List Node))
    (svcsList : Except String (List Service)) (svcs : List ServicePort) :
    Option (Except String (String → Option String)) :=
  match nodesList with
  | .error e => some (.error ("error while listing all nodes: " ++ e))
  | .ok nodes =>
    match nodes with
    | [] => none
    | n :: _ =>
      match n.addresses with
      | [] => none
      | a :: _ =>
        match svcsList with
        | .error e => some (.error ("error while listing all services: " ++ e))
        | .ok services => some (.ok (declLoop a.address svcs services emptyEP))

/-- A key is bound after `portLoop` iff it was bound before or it is this
declared entry's key and some scanned port matches the declared port. -/
theorem portLoop_isSome (nodeIP : String) (svc : ServicePort) :
    ∀ (ps : List LivePort) (m : String → Option String) (k : String),
      (portLoop nodeIP svc ps m k).isSome = true ↔
        (m k).isSome = true ∨ (k = svcKey svc ∧ ∃ p ∈ ps, p.port = svc.port) := by
  intro ps
  induction ps with
  | nil => intro m k; simp [portLoop]
  | cons p ps ih =>
    intro m k
    by_cases hp : p.port = svc.port
    · rw [show portLoop nodeIP svc (p :: ps) m =
          portLoop nodeIP svc ps (insertEP m (svcKey svc) (nodeUrl nodeIP p.nodePort)) by
            simp [portLoop, hp]]
      rw [ih]
      constructor
      · rintro (hs | ⟨hk, q, hq, hqp⟩)
        · by_cases hk : k = svcKey svc
          · exact Or.inr ⟨hk, p, List.mem_cons_self _ _, hp⟩
          · simp [insertEP, hk] at hs
            exact Or.inl hs
        · exact Or.inr ⟨hk, q, List.mem_cons_of_mem _ hq, hqp⟩
      · rintro (hs | ⟨hk, q, hq, hqp⟩)
        · by_cases hk : k = svcKey svc
          · exact Or.inl (by simp [insertEP, hk])
          · exact Or.inl (by simpa [insertEP, hk] using hs)
        · exact Or.inl (by simp [insertEP, hk])
    · rw [show portLoop nodeIP svc (p :: ps) m = portLoop nodeIP svc ps m by
        simp [portLoop, hp]]
      rw [ih]
      constructor
      · rintro (hs | ⟨hk, q, hq, hqp⟩)
        · exact Or.inl hs
        · exact Or.inr ⟨hk, q, List.mem_cons_of_mem _ hq, hqp⟩
      · rintro (hs | ⟨hk, q, hq, hqp⟩)
        · exact Or.inl hs
        · rcases List.mem_cons.mp hq with rfl | hq'
          · exact absurd hqp hp
          · exact Or.inr ⟨hk, q, hq', hqp⟩

/-- A key is bound after `svcLoop` iff it was bound before or it is this
declared entry's key and some live service matches its name with a port
matching its declared port. -/
theorem svcLoop_isSome (nodeIP : String) (svc : ServicePort) :
    ∀ (ss : List Service) (m : String → Option String) (k : String),
      (svcLoop nodeIP svc ss m k).isSome = true ↔
        (m k).isSome = true ∨
          (k = svcKey svc ∧ ∃ s ∈ ss, s.name = svc.name ∧ ∃ p ∈ s.ports, p.port = svc.port) := by
  intro ss
  induction ss with
  | nil => intro m k; simp [svcLoop]
  | cons s ss ih =>
    intro m k
    by_cases hn : s.name = svc.name
    · rw [show svcLoop nodeIP svc (s :: ss) m =
          svcLoop nodeIP svc ss (portLoop nodeIP svc s.ports m) by simp [svcLoop, hn]]
      rw [ih, portLoop_isSome]
      constructor
      · rintro ((hs | ⟨hk, p, hp, hpp⟩) | ⟨hk, t, ht, htn, hrest⟩)
        · exact Or.inl hs
        · exact Or.inr ⟨hk, s, List.mem_cons_self _ _, hn, p, hp, hpp⟩
        · exact Or.inr ⟨hk, t, List.mem_cons_of_mem _ ht, htn, hrest⟩
      · rintro (hs | ⟨hk, t, ht, htn, p, hp, hpp⟩)
        · exact Or.inl (Or.inl hs)
        · rcases List.mem_cons.mp ht with rfl | ht'
          · exact Or.inl (Or.inr ⟨hk, p, hp, hpp⟩)
          · exact Or.inr ⟨hk, t, ht', htn, p, hp, hpp⟩
    · rw [show svcLoop nodeIP svc (s :: ss) m = svcLoop nodeIP svc ss m by simp [svcLoop, hn]]
      rw [ih]
      constructor
      · rintro (hs | ⟨hk, t, ht, htn, hrest⟩)
        · exact Or.inl hs
        · exact Or.inr ⟨hk, t, List.mem_cons_of_mem _ ht, htn, hrest⟩
      · rintro (hs | ⟨hk, t, ht, htn, hrest⟩)
        · exact Or.inl hs
        · rcases List.mem_cons.mp ht with rfl | ht'
          · exact absurd htn hn
          · exact Or.inr ⟨hk, t, ht', htn, hrest⟩

/-- A key is bound after `declLoop` iff it was bound before or some declared
entry with that key matches a live service and one of its ports. -/
theorem declLoop_isSome (nodeIP : String) :
    ∀ (svcs : List ServicePort) (services : List Service)
      (m : String → Option String) (k : String),
      (declLoop nodeIP svcs services m k).isSome = true ↔
        (m k).isSome = true ∨
          ∃ svc ∈ svcs, k = svcKey svc ∧
            ∃ s ∈ services, s.name = svc.name ∧ ∃ p ∈ s.ports, p.port = svc.port := by
  intro svcs
  induction svcs with
  | nil => intro services m k; simp [declLoop]
  | cons svc rest ih =>
    intro services m k
    rw [show declLoop nodeIP (svc :: rest) services m =
        declLoop nodeIP rest services (svcLoop nodeIP svc services m) by simp [declLoop]]
    rw [ih, svcLoop_isSome]
    constructor
    · rintro ((hs | ⟨hk, hrest⟩) | ⟨t, ht, hrest⟩)
      · exact Or.inl hs
      · exact Or.inr ⟨svc, List.mem_cons_self _ _, hk, hrest⟩
      · exact Or.inr ⟨t, List.mem_cons_of_mem _ ht, hrest⟩
    · rintro (hs | ⟨t, ht, hrest⟩)
      · exact Or.inl (Or.inl hs)
      · rcases List.mem_cons.mp ht with rfl | ht'
        · exact Or.inl (Or.inr hrest)
        · exact Or.inr ⟨t, ht', hrest⟩

/-- Every binding produced by `portLoop` that was not already present maps
this declared entry's key to the URL formed from the node address and the
matching port's node port. -/
theorem portLoop_eq_some (nodeIP : String) (svc : ServicePort) :
    ∀ (ps : List LivePort) (m : String → Option String) (k v : String),
      portLoop nodeIP svc ps m k = some v →
      m k = some v ∨
        (k = svcKey svc ∧ ∃ p ∈ ps, p.port = svc.port ∧ v = nodeUrl nodeIP p.nodePort) := by
  intro ps
  induction ps with
  | nil => intro m k v h; exact Or.inl h
  | cons p ps ih =>
    intro m k v h
    by_cases hp : p.port = svc.port
    · rw [show portLoop nodeIP svc (p :: ps) m =
          portLoop nodeIP svc ps (insertEP m (svcKey svc) (nodeUrl nodeIP p.nodePort)) by
            simp [portLoop, hp]] at h
      rcases ih _ k v h with hs | ⟨hk, q, hq, hqp, hv⟩
      · by_cases hk : k = svcKey svc
        · have : v = nodeUrl nodeIP p.nodePort := by
            have := hs
            simp [insertEP, hk] at this
            exact this.symm
          exact Or.inr ⟨hk, p, List.mem_cons_self _ _, hp, this⟩
        · exact Or.inl (by simpa [insertEP, hk] using hs)
      · exact Or.inr ⟨hk, q, List.mem_cons_of_mem _ hq, hqp, hv⟩
    · rw [show portLoop nodeIP svc (p :: ps) m = portLoop nodeIP svc ps m by
        simp [portLoop, hp]] at h
      rcases ih m k v h with hs | ⟨hk, q, hq, hqp, hv⟩
      · exact Or.inl hs
      · exact Or.inr ⟨hk, q, List.mem_cons_of_mem _ hq, hqp, hv⟩

/-- Every binding produced by `svcLoop` that was not already present comes
from a live service matching this declared entry. -/
theorem svcLoop_eq_some (nodeIP : String) (svc : ServicePort) :
    ∀ (ss : List Service) (m : String → Option String) (k v : String),
      svcLoop nodeIP svc ss m k = some v →
      m k = some v ∨
        (k = svcKey svc ∧ ∃ s ∈ ss, s.name = svc.name ∧
          ∃ p ∈ s.ports, p.port = svc.port ∧ v = nodeUrl nodeIP p.nodePort) := by
  intro ss
  induction ss with
  | nil => intro m k v h; exact Or.inl h
  | cons s ss ih =>
    intro m k v h
    by_cases hn : s.name = svc.name
    · rw [show svcLoop nodeIP svc (s :: ss) m =
          svcLoop nodeIP svc ss (portLoop nodeIP svc s.ports m) by simp [svcLoop, hn]] at h
      rcases ih _ k v h with hs | ⟨hk, t, ht, htn, hrest⟩
      · rcases portLoop_eq_some nodeIP svc s.ports m k v hs with hs' | ⟨hk, p, hp, hpp, hv⟩
        · exact Or.inl hs'
        · exact Or.inr ⟨hk, s, List.mem_cons_self _ _, hn, p, hp, hpp, hv⟩
      · exact Or.inr ⟨hk, t, List.mem_cons_of_mem _ ht, htn, hrest⟩
    · rw [show svcLoop nodeIP svc (s :: ss) m = svcLoop nodeIP svc ss m by
        simp [svcLoop, hn]] at h
      rcases ih m k v h with hs | ⟨hk, t, ht, htn, hrest⟩
      · exact Or.inl hs
      · exact Or.inr ⟨hk, t, List.mem_cons_of_mem _ ht, htn, hrest⟩

/-- Every binding produced by `declLoop` that was not already present comes
from a declared entry matching a live service and one of its ports. -/
theorem declLoop_eq_some (nodeIP : String) :
    ∀ (svcs : List ServicePort) (services : List Service)
      (m : String → Option String) (k v : String),
      declLoop nodeIP svcs services m k = some v →
      m k = some v ∨
        ∃ svc ∈ svcs, k = svcKey svc ∧
          ∃ s ∈ services, s.name = svc.name ∧
            ∃ p ∈ s.ports, p.port = svc.port ∧ v = nodeUrl nodeIP p.nodePort := by
  intro svcs
  induction svcs with
  | nil => intro services m k v h; exact Or.inl h
  | cons svc rest ih =>
    intro services m k v h
    rw [show declLoop nodeIP (svc :: rest) services m =
        declLoop nodeIP rest services (svcLoop nodeIP svc services m) by simp [declLoop]] at h
    rcases ih services _ k v h with hs | ⟨t, ht, hrest⟩
    · rcases svcLoop_eq_some nodeIP svc services m k v hs with hs' | ⟨hk, hrest⟩
      · exact Or.inl hs'
      · exact Or.inr ⟨svc, List.mem_cons_self _ _, hk, hrest⟩
    · exact Or.inr ⟨t, List.mem_cons_of_mem _ ht, hrest⟩

end Kapp

/-- C4: given a first node with a first address, `getEndPoints` returns a map
(no error) in which every binding comes from a declared (name, port) pair
matching a live service's name and one of its listed ports, with key
`name:port` and value `http://<first-node-address>:<node-port>`; a key is
present exactly when such a match exists, so declared entries with no matching
live service or port are silently omitted. -/
theorem C4_resolver_no_fabricated_endpoints (n : Kapp.Node) (a : Kapp.NodeAddress)
    (nrest : List Kapp.Node) (arest : List Kapp.NodeAddress) (ha : n.addresses = a :: arest)
    (services : List Kapp.Service) (svcs : List Kapp.ServicePort) :
    ∃ m, Kapp.getEndPoints (.ok (n :: nrest)) (.ok services) svcs = some (.ok m) ∧
      (∀ k v, m k = some v →
        ∃ svc ∈ svcs, k = Kapp.svcKey svc ∧
          ∃ s ∈ services, s.name = svc.name ∧
            ∃ p ∈ s.ports, p.port = svc.port ∧ v = Kapp.nodeUrl a.address p.nodePort) ∧
      (∀ k, (m k).isSome = true ↔
        ∃ svc ∈ svcs, k = Kapp.svcKey svc ∧
          ∃ s ∈ services, s.name = svc.name ∧ ∃ p ∈ s.ports, p.port = svc.port) := by
  refine ⟨Kapp.declLoop a.address svcs services Kapp.emptyEP, ?_, ?_, ?_⟩
  · simp [Kapp.getEndPoints, ha]
  · intro k v h
    rcases Kapp.declLoop_eq_some a.address svcs services Kapp.emptyEP k v h with hs | hgood
    · simp [Kapp.emptyEP] at hs
    · exact hgood
  · intro k
    rw [Kapp.declLoop_isSome]
    simp [Kapp.emptyEP]

/-- C4 witness: the spec's end-to-end scenario — node address `10.0.0.5`, live
service `wordpress` mapping port 8080 to node port 30080, declared entry
`{wordpress, 8080}`. -/
theorem C4_resolver_no_fabricated_endpoints_witness :
    ∃ m, Kapp.getEndPoints
        (.ok [Kapp.Node.mk [Kapp.NodeAddress.mk "10.0.0.5"]])
        (.ok [Kapp.Service.mk "wordpress" [Kapp.LivePort.mk 8080 30080]])
        [Kapp.ServicePort.mk "wordpress" 8080] = some (.ok m) ∧
      (∀ k v, m k = some v →
        ∃ svc ∈ [Kapp.ServicePort.mk "wordpress" 8080], k = Kapp.svcKey svc ∧
          ∃ s ∈ [Kapp.Service.mk "wordpress" [Kapp.LivePort.mk 8080 30080]],
            s.name = svc.name ∧ ∃ p ∈ s.ports, p.port = svc.port ∧
              v = Kapp.nodeUrl (Kapp.NodeAddress.mk "10.0.0.5").address p.nodePort) ∧
      (∀ k, (m k).isSome = true ↔
        ∃ svc ∈ [Kapp.ServicePort.mk "wordpress" 8080], k = Kapp.svcKey svc ∧
          ∃ s ∈ [Kapp.Service.mk "wordpress" [Kapp.LivePort.mk 8080 30080]],
            s.name = svc.name ∧ ∃ p ∈ s.ports, p.port = svc.port) :=
  C4_resolver_no_fabricated_endpoints (Kapp.Node.mk [Kapp.NodeAddress.mk "10.0.0.5"])
    (Kapp.NodeAddress.mk "10.0.0.5") [] [] rfl
    [Kapp.Service.mk "wordpress" [Kapp.LivePort.mk 8080 30080]]
    [Kapp.ServicePort.mk "wordpress" 8080]

/-- C9: when the node listing succeeds with an empty node list, or the first
node has an empty address list, `getEndPoints` panics (the unguarded index
accesses `Items[0]` / `Addresses[0]`, modelled as `none`) instead of returning
an error value. -/
theorem C9_resolver_panics_on_empty_nodes (svcsList : Except String (List Kapp.Service))
    (svcs : List Kapp.ServicePort) (rest : List Kapp.Node) :
    Kapp.getEndPoints (.ok []) svcsList svcs = none ∧
    Kapp.getEndPoints (.ok (Kapp.Node.mk [] :: rest)) svcsList svcs = none := by
  exact ⟨rfl, rfl⟩

namespace Kapp

/-- Outcome of running the external generator process (`cmd.Run()`): whether
it exited zero, what it wrote to its standard output and standard error
buffers, and the text of the Go error value when it exited non-zero. -/
structure ExecResult where
  exitOk : Bool
  stdout : String
  stderr : String
  errMsg : String
deriving DecidableEq, Repr

/-- The argument vector built by `RunKapp`: start from `["generate"]` and
append `"-f"`, `os.ExpandEnv(file)` for each input file in order
(`os.ExpandEnv` is the oracle `expand`). -/
def kappArgs (expand : String → String) (files : List String) : List String :=
  files.foldl (fun args f => args ++ ["-f", expand f]) ["generate"]

/-- The error built by
`fmt.Errorf("error running %q\n%s %s", fmt.Sprintf("kapp %s", strings.Join(args, " ")), stdErr.String(), err)`
(`%q` modelled as plain quoting). -/
def runKappErrMsg (args : List String) (stderr errMsg : String) : String :=
  "error running \"" ++ ("kapp " ++ String.intercalate " " args) ++ "\"\n" ++
    stderr ++ " " ++ errMsg

/-- What a call of `RunKapp` did: the argument vectors of the generator
invocations it issued, and its return value. -/
structure KappRun where
  invocations : List (List String)
  result : Except String String
deriving Repr

/-- `RunKapp`: build the argument vector, run the generator once on it, and
return its standard output on a zero exit, or the error carrying the argument
string and the standard-error text on a non-zero exit. -/
def RunKapp (exec : List String → ExecResult) (expand : String → String)
    (files : List String) : KappRun :=
  let args := kappArgs expand files
  let r := exec args
  ⟨[args], if r.exitOk then .ok r.stdout else .error (runKappErrMsg args r.stderr r.errMsg)⟩

/-- `kappArgs` unrolled: the base subcommand followed by one `-f <expanded>`
pair per file, in input order. -/
theorem kappArgs_eq (expand : String → String) :
    ∀ (files : List String) (init : List String),
      files.foldl (fun args f => args ++ ["-f", expand f]) init =
        init ++ (files.map (fun f => ["-f", expand f])).flatten := by
  intro files
  induction files with
  | nil => intro init; simp
  | cons f fs ih =>
    intro init
    simp only [List.foldl_cons, List.map_cons, List.flatten]
    rw [ih]
    simp [List.append_assoc]

end Kapp

/-- C5: `RunKapp` invokes the generator exactly once, with argument vector
`generate` followed by `-f <expanded path>` pairs in input order (for an
empty file list, just `generate`); it returns the process's standard output
on a zero exit, and on a non-zero exit an error built from the argument
string and the standard-error text. -/
theorem C5_runkapp_invocation (exec : List String → Kapp.ExecResult)
    (expand : String → String) (files : List String) :
    (Kapp.RunKapp exec expand files).invocations = [Kapp.kappArgs expand files] ∧
    Kapp.kappArgs expand files =
      "generate" :: (files.map (fun f => ["-f", expand f])).flatten ∧
    Kapp.kappArgs expand [] = ["generate"] ∧
    ((exec (Kapp.kappArgs expand files)).exitOk = true →
      (Kapp.RunKapp exec expand files).result =
        .ok (exec (Kapp.kappArgs expand files)).stdout) ∧
    ((exec (Kapp.kappArgs expand files)).exitOk = false →
      (Kapp.RunKapp exec expand files).result =
        .error (Kapp.runKappErrMsg (Kapp.kappArgs expand files)
          (exec (Kapp.kappArgs expand files)).stderr
          (exec (Kapp.kappArgs expand files)).errMsg)) := by
  refine ⟨rfl, ?_, rfl, ?_, ?_⟩
  · simpa [Kapp.kappArgs] using Kapp.kappArgs_eq expand files ["generate"]
  · intro h; simp [Kapp.RunKapp, h]
  · intro h; simp [Kapp.RunKapp, h]

/-- Generator oracle for the C5 witness: succeeds with output `manifest` on
the expected argument vector, fails otherwise. -/
def execW : List String → Kapp.ExecResult := fun args =>
  if args = ["generate", "-f", "A"] then ⟨true, "manifest", "", ""⟩
  else ⟨false, "", "bad", "exit status 1"⟩

/-- Environment expansion oracle for the C5 witness. -/
def expandW : String → String := fun s => if s = "$F" then "A" else s

/-- C5 witness: one input file `$F` expanding to `A` produces the single
invocation `kapp generate -f A` and surfaces the generator's standard
output. -/
theorem C5_runkapp_invocation_witness :
    (Kapp.RunKapp execW expandW ["$F"]).invocations = [["generate", "-f", "A"]] ∧
    (Kapp.RunKapp execW expandW ["$F"]).result = .ok "manifest" := by
  have h := C5_runkapp_invocation execW expandW ["$F"]
  have h1 := h.1
  have h4 := h.2.2.2.1 (by decide)
  constructor
  · rw [h1]; rfl
  · rw [h4]; rfl

namespace Kapp

/-- Outcomes of the collaborator calls made for one test case, in pipeline
order: namespace creation, generator run, `kubectl create`, pod readiness,
endpoint resolution, endpoint health, and namespace deletion. -/
structure StepOutcomes where
  createNS : Except String Unit
  runKapp : Except String String
  kubeCreate : Except String Unit
  podsStarted : Except String Unit
  getEndPoints : Except String Unit
  pingEndPoints : Except String Unit
  deleteNS : Except String Unit
deriving Repr

/-- What one test-case execution did: how many times namespace deletion was
invoked, and the error (if any) handed to the caller. -/
structure CaseTrace where
  deleteCalls : Nat
  result : Except String Unit
deriving Repr

/-- The per-test-case body of the sequential `RunTests` in `main.go`: each
step's failure returns immediately (wrapped with the step's context), so
namespace deletion runs only when every earlier step succeeded — and a
deletion failure is itself returned to the caller. -/
def runCaseSeq (o : StepOutcomes) : CaseTrace :=
  match o.createNS with
  | .error e => ⟨0, .error ("error creating namespace: " ++ e)⟩
  | .ok _ =>
    match o.runKapp with
    | .error e => ⟨0, .error ("error running kapp: " ++ e)⟩
    | .ok _ =>
      match o.kubeCreate with
      | .error e => ⟨0, .error ("error running kubectl create: " ++ e)⟩
      | .ok _ =>
        match o.podsStarted with
        | .error e => ⟨0, .error ("error finding running pods: " ++ e)⟩
        | .ok _ =>
          match o.getEndPoints with
          | .error e => ⟨0, .error ("error getting nodes: " ++ e)⟩
          | .ok _ =>
            match o.pingEndPoints with
            | .error e => ⟨0, .error ("error pinging endpoint: " ++ e)⟩
            | .ok _ =>
              match o.deleteNS with
              | .error e => ⟨1, .error ("error deleting namespace: " ++ e)⟩
              | .ok _ => ⟨1, .ok ()⟩

/-- The per-test-case body of the e2e variant (`Test_Integration`): after a
successful namespace creation, `defer deleteNamespace(...)` is scheduled, so
deletion runs exactly once on every exit path — including every `t.Fatalf`
path — and `deleteNamespace` only logs its own failure, never affecting the
subtest's result. -/
def runCaseE2E (o : StepOutcomes) : CaseTrace :=
  match o.createNS with
  | .error e => ⟨0, .error ("error creating namespace: " ++ e)⟩
  | .ok _ =>
    ⟨1,
      match o.runKapp with
      | .error e => .error ("error running kapp: " ++ e)
      | .ok _ =>
        match o.kubeCreate with
        | .error e => .error ("error running kubectl create: " ++ e)
        | .ok _ =>
          match o.podsStarted with
          | .error e => .error ("error finding running pods: " ++ e)
          | .ok _ =>
            match o.getEndPoints with
            | .error e => .error ("error getting nodes: " ++ e)
            | .ok _ =>
              match o.pingEndPoints with
              | .error e => .error ("error pinging endpoint: " ++ e)
              | .ok _ => .ok ()⟩

end Kapp

/-- C2 counterexample: in the sequential `RunTests` of `main.go`, a test case
whose generator step fails never invokes namespace deletion (0 calls, not 1),
and when every step succeeds but deletion fails, the deletion error is
propagated to the caller — so the claim is false as stated over the
program. -/
theorem C2_counterexample :
    (Kapp.runCaseSeq
      ⟨.ok (), .error "kapp failed", .ok (), .ok (), .ok (), .ok (), .ok ()⟩).deleteCalls = 0 ∧
    (Kapp.runCaseSeq
      ⟨.ok (), .ok "m", .ok (), .ok (), .ok (), .ok (), .error "denied"⟩).result =
      .error "error deleting namespace: denied" :=
  ⟨rfl, rfl⟩

/-- C2 (amended): in the e2e test variant, once namespace creation has
succeeded, namespace deletion is invoked exactly once whatever the later
steps do, and its outcome never influences the reported result; in the
sequential orchestrator of `main.go`, deletion runs only when every earlier
step succeeded and a deletion failure is propagated to the caller. -/
theorem C2_delete_once_e2e (o : Kapp.StepOutcomes) (h : o.createNS = .ok ()) :
    (Kapp.runCaseE2E o).deleteCalls = 1 ∧
    ∀ d, Kapp.runCaseE2E
        ⟨o.createNS, o.runKapp, o.kubeCreate, o.podsStarted,
          o.getEndPoints, o.pingEndPoints, d⟩ = Kapp.runCaseE2E o := by
  obtain ⟨c, rk, kc, ps, ge, pe, d⟩ := o
  simp only at h
  subst h
  refine ⟨rfl, ?_⟩
  intro d'
  rfl

/-- C2 witness for the amended claim: a concrete case where the pod-readiness
step fails and the deletion itself fails still deletes exactly once and
reports the pod-readiness error only. -/
theorem C2_delete_once_e2e_witness :
    (Kapp.runCaseE2E
      ⟨.ok (), .ok "m", .ok (), .error "pods never started", .ok (), .ok (),
        .error "delete denied"⟩).deleteCalls = 1 :=
  (C2_delete_once_e2e
    ⟨.ok (), .ok "m", .ok (), .error "pods never started", .ok (), .ok (),
      .error "delete denied"⟩ rfl).1
